import Mathlib

/-!
Verification of the AI SDR agent's orchestration core against its
natural-language specification.

The Python orchestration core ships in the snapshot in byte-compiled form
(`tools/get_leads.py` and `tools/interaction.py`); its observable
semantics — control flow, field mappings, status/error strings — are
readable there and are embedded below, each definition's doc comment
naming its source.  The web dashboard's API routes and schema types are
embedded from the TypeScript sources.
-/

namespace AiSdr

/-- JSON-serializable values, as stored by the Memory Store and carried in
request bodies.  `fnum m e` stands for the decimal value m × 10^e, the
exact result of parsing a decimal literal (binary floating-point rounding
is not modelled; values are only stored and compared for identity). -/
inductive JsonVal where
  | str (s : String)
  | num (n : Int)
  | fnum (mantissa : Int) (exp10 : Int)
  | bool (b : Bool)
  | null
  | arr (xs : List JsonVal)
  | obj (kvs : List (String × JsonVal))

/-- Lookup in a string-keyed association list (the shape of both the
on-disk memory file, a single JSON object, and the process environment). -/
def alistLookup {α : Type} : List (String × α) → String → Option α
  | [], _ => none
  | (k, v) :: rest, key => if k = key then some v else alistLookup rest key

/-- Insert-or-overwrite in a string-keyed association list; models the
"load fully, mutate, rewrite" update of the on-disk memory mapping. -/
def alistInsert {α : Type} : List (String × α) → String → α → List (String × α)
  | [], k, v => [(k, v)]
  | (k', v') :: rest, k, v =>
      if k' = k then (k, v) :: rest else (k', v') :: alistInsert rest k v

theorem alistLookup_insert_self {α : Type} (m : List (String × α)) (k : String) (v : α) :
    alistLookup (alistInsert m k v) k = some v := by
  induction m with
  | nil => simp [alistInsert, alistLookup]
  | cons hd tl ih =>
    obtain ⟨k', v'⟩ := hd
    by_cases h : k' = k
    · simp [alistInsert, alistLookup, h]
    · simp [alistInsert, alistLookup, h, ih]

theorem alistLookup_insert_ne {α : Type} (m : List (String × α)) (k k' : String) (v : α)
    (h : k' ≠ k) : alistLookup (alistInsert m k v) k' = alistLookup m k' := by
  have hkk : ¬ (k = k') := fun hh => h hh.symm
  induction m with
  | nil => simp [alistInsert, alistLookup, hkk]
  | cons hd tl ih =>
    obtain ⟨k₀, v₀⟩ := hd
    by_cases hk : k₀ = k
    · subst hk
      simp [alistInsert, alistLookup, hkk]
    · by_cases hk' : k₀ = k'
      · simp [alistInsert, alistLookup, hk, hk', h]
      · simp [alistInsert, alistLookup, hk, hk', ih]

/-- Whitespace trimming, written structurally over the character list so
the kernel can evaluate it on literals; mirrors Python `str.strip`. -/
def trimStr (s : String) : String :=
  ⟨((s.data.dropWhile fun c => c.isWhitespace).reverse.dropWhile
      fun c => c.isWhitespace).reverse⟩

/-- Lowercasing, written structurally over the character list so the
kernel can evaluate it on literals; mirrors Python `str.lower` on ASCII. -/
def lowerStr (s : String) : String :=
  ⟨s.data.map Char.toLower⟩

def digitsValAux : List Char → Nat → Option Nat
  | [], acc => some acc
  | c :: rest, acc =>
    if c.isDigit then digitsValAux rest (acc * 10 + (c.toNat - 48)) else none

def digitsVal : List Char → Option Nat
  | [] => none
  | cs => digitsValAux cs 0

/-- The numeric value of a run of decimal digits. -/
def natOfDigits (cs : List Char) : Nat :=
  cs.foldl (fun acc c => acc * 10 + (c.toNat - 48)) 0

/-- Decimal integer parsing (optional sign followed by digits); models
Python `int` on its plain decimal inputs (exotic forms such as underscore
separators are outside the modelled input space and fail here as there). -/
def parseIntStr (s : String) : Option Int :=
  match s.data with
  | '-' :: rest => (digitsVal rest).map fun n => -(n : Int)
  | '+' :: rest => (digitsVal rest).map fun n => (n : Int)
  | cs => (digitsVal cs).map fun n => (n : Int)

/-- Split a leading run of decimal digits off a character list. -/
def spanDigits : List Char → List Char × List Char
  | [] => ([], [])
  | c :: rest =>
    if c.isDigit then
      let (d, r) := spanDigits rest
      (c :: d, r)
    else ([], c :: rest)

/-- Parse an optional decimal exponent suffix (`e`/`E`, optional sign,
digits); `some 0` for no suffix, `none` for a malformed one. -/
def parseExpSuffix : List Char → Option Int
  | [] => some 0
  | c :: rest =>
    if c = 'e' ∨ c = 'E' then
      let (esign, rest') :=
        match rest with
        | '-' :: r => ((-1 : Int), r)
        | '+' :: r => ((1 : Int), r)
        | r => ((1 : Int), r)
      let (ds, leftover) := spanDigits rest'
      if ds.isEmpty || !leftover.isEmpty then none
      else some (esign * (natOfDigits ds : Int))
    else none

/-- Decimal floating-point literal parsing: optional sign, digits with an
optional fractional part, optional decimal exponent; the result `(m, e)`
denotes m × 10^e exactly.  Models Python `float` on plain decimal forms
(special forms such as inf/nan are outside the modelled input space). -/
def parseFloatStr (s : String) : Option (Int × Int) :=
  let (sign, cs) :=
    match s.data with
    | '-' :: rest => ((-1 : Int), rest)
    | '+' :: rest => ((1 : Int), rest)
    | cs => ((1 : Int), cs)
  let (ds, rest) := spanDigits cs
  let (fs, rest') :=
    match rest with
    | '.' :: r => spanDigits r
    | _ => ([], rest)
  if ds.isEmpty && fs.isEmpty then none
  else
    match parseExpSuffix rest' with
    | none => none
    | some e => some (sign * (natOfDigits (ds ++ fs) : Int), e - (fs.length : Int))

/-- The Memory Store state, embedded from `tools/interaction.py`: the
module-level in-process cache (`_memory_store`) and the parsed contents of
the on-disk `data/memory.json` mapping.  A disk read failure behaves as an
empty mapping, as the code then falls through to the default/not-found
path. -/
structure MemoryStore where
  cache : List (String × JsonVal)
  disk : List (String × JsonVal)

/-- Embedded from `tools/interaction.py` `remember`: the in-process cache
is written first, then the on-disk mapping is loaded, mutated and fully
rewritten.  `diskOk` stands for the disk write completing; when it fails
the error status is returned (the exception text is abstracted) with the
cache write already in place. -/
def remember (st : MemoryStore) (key : String) (value : JsonVal) (diskOk : Bool) :
    MemoryStore × Except String JsonVal :=
  let c := alistInsert st.cache key value
  if diskOk then
    ({ cache := c, disk := alistInsert st.disk key value }, .ok value)
  else
    ({ cache := c, disk := st.disk }, .error "Failed to store value")

/-- Embedded from `tools/interaction.py` `recall`: the in-process cache is
checked first (source string "memory"); on miss the on-disk mapping
(source "disk", populating the cache before returning); then the provided
default (source "default", tested with `is not None`); a total miss yields
the "Key not found" error status. -/
def recallMem (st : MemoryStore) (key : String) (deflt : Option JsonVal) :
    MemoryStore × Except String (JsonVal × String) :=
  match alistLookup st.cache key with
  | some v => (st, .ok (v, "memory"))
  | none =>
    match alistLookup st.disk key with
    | some v => ({ st with cache := alistInsert st.cache key v }, .ok (v, "disk"))
    | none =>
      match deflt with
      | some d => (st, .ok (d, "default"))
      | none => (st, .error ("Key not found: " ++ key))

/-- Embedded from `tools/interaction.py` `clear_memory`: the cache is
reset and the on-disk file rewritten empty. -/
def clear_memory : MemoryStore :=
  { cache := [], disk := [] }

/-- C4 --- Memory Store round-trip across a restart: a successful
`remember key value` followed by `recall key` in a fresh process (empty
in-process cache, same disk file) returns `value` with source "disk". -/
theorem remember_recall_fresh_process (st : MemoryStore) (key : String) (value : JsonVal)
    (diskOk : Bool) (hok : (remember st key value diskOk).2 = .ok value) :
    (recallMem { cache := [], disk := (remember st key value diskOk).1.disk } key none).2 =
      .ok (value, "disk") := by
  cases diskOk with
  | false => simp [remember] at hok
  | true =>
    simp [remember, recallMem, alistLookup, alistLookup_insert_self]

theorem remember_recall_fresh_process_witness :
    (remember { cache := [], disk := [] } "industry" (.str "AI SaaS") true).2 =
        .ok (.str "AI SaaS") ∧
      (recallMem { cache := [],
                   disk := (remember { cache := [], disk := [] } "industry"
                     (.str "AI SaaS") true).1.disk }
        "industry" none).2 = .ok (.str "AI SaaS", "disk") :=
  ⟨rfl, remember_recall_fresh_process { cache := [], disk := [] } "industry"
    (.str "AI SaaS") true rfl⟩

/-- C5 --- `recall` resolves sources in the fixed order in-process cache
(source "memory"), then disk (source "disk", populating the cache), then
default; it fails, and then only with the "Key not found" status that
realizes the spec's NotFoundError, exactly when the key is in neither
cache nor disk and no default was given; with a default provided it never
fails. -/
theorem recall_resolution_order (st : MemoryStore) (key : String) (deflt : Option JsonVal) :
    (∀ v, alistLookup st.cache key = some v →
        (recallMem st key deflt).2 = .ok (v, "memory")) ∧
    (∀ v, alistLookup st.cache key = none → alistLookup st.disk key = some v →
        (recallMem st key deflt).2 = .ok (v, "disk") ∧
          alistLookup (recallMem st key deflt).1.cache key = some v) ∧
    (∀ d, alistLookup st.cache key = none → alistLookup st.disk key = none →
        deflt = some d → (recallMem st key deflt).2 = .ok (d, "default")) ∧
    (∀ msg, (recallMem st key deflt).2 = .error msg ↔
        (msg = "Key not found: " ++ key ∧ alistLookup st.cache key = none ∧
          alistLookup st.disk key = none ∧ deflt = none)) := by
  refine ⟨?_, ?_, ?_, ?_⟩
  · intro v hc
    simp [recallMem, hc]
  · intro v hc hd
    simp [recallMem, hc, hd, alistLookup_insert_self]
  · intro d hc hd hdef
    simp [recallMem, hc, hd, hdef]
  · intro msg
    cases hc : alistLookup st.cache key with
    | some v => simp [recallMem, hc]
    | none =>
      cases hd : alistLookup st.disk key with
      | some v => simp [recallMem, hc, hd]
      | none =>
        cases hdef : deflt with
        | some d => simp [recallMem, hc, hd, hdef]
        | none =>
          constructor
          · intro h
            have he : msg = "Key not found: " ++ key := by
              simp [recallMem, hc, hd] at h
              exact h.symm
            exact ⟨he, rfl, rfl, rfl⟩
          · rintro ⟨he, -, -, -⟩
            subst he
            simp [recallMem, hc, hd]

theorem recall_resolution_order_witness :
    (recallMem { cache := [], disk := [("role", .str "Founder")] } "role" none).2 =
        .ok (.str "Founder", "disk") ∧
      alistLookup (recallMem { cache := [], disk := [("role", .str "Founder")] }
        "role" none).1.cache "role" = some (.str "Founder") :=
  (recall_resolution_order { cache := [], disk := [("role", .str "Founder")] }
    "role" none).2.1 (.str "Founder") rfl rfl

/-- Does a trimmed input pass the `options` membership check (vacuously
true when no option list was supplied)? -/
def optionOk (opts : Option (List String)) (t : String) : Bool :=
  match opts with
  | none => true
  | some os => os.contains t

/-- Embedded from `tools/interaction.py` `get_user_input`: the operator's
reply is read and stripped; empty input returns the default when the
default is truthy (a non-empty string); with an option list, input outside
it re-prompts; otherwise the stripped input is returned.  The code's
`while True` loop is run here against the finite operator transcript
`responses`: a transcript that never satisfies the validator yields
`none`, standing for the code prompting forever.  Returns the remaining
transcript, the number of prompts issued, and the accepted string. -/
def get_user_input : List String → Option String → Option (List String) →
    Option (List String × Nat × String)
  | [], _, _ => none
  | resp :: rest, deflt, opts =>
    let t := trimStr resp
    if t == "" && deflt.getD "" != "" then some (rest, 1, deflt.getD "")
    else if optionOk opts t then some (rest, 1, t)
    else
      match get_user_input rest deflt opts with
      | some (r, n, s) => some (r, n + 1, s)
      | none => none

/-- The replies `confirm_action` interprets as yes: the code's tuple
('y', 'yes', 'true', '1'). -/
def truthyInputs : List String := ["y", "yes", "true", "1"]

/-- Embedded from `tools/interaction.py` `confirm_action`: the operator's
reply is read through `get_user_input` (whence the stripping) with no
default and no options; an empty reply yields `deflt`; otherwise
membership of the lowercased reply in ('y','yes','true','1') decides. -/
def confirm_action (description : String) (input : String) (deflt : Bool) : Bool :=
  if trimStr input = "" then deflt
  else truthyInputs.contains (lowerStr (trimStr input))

/-- C8 --- `confirm_action` returns the default for empty input and, for
non-empty input, returns true exactly when the trimmed, lowercased input
is one of "y", "yes", "true", "1"; in particular, with default true, empty
input yields true and input "n" yields false. -/
theorem confirm_action_semantics (description input : String) (deflt : Bool) :
    (trimStr input = "" → confirm_action description input deflt = deflt) ∧
    (trimStr input ≠ "" →
      (confirm_action description input deflt = true ↔
        (lowerStr (trimStr input) = "y" ∨ lowerStr (trimStr input) = "yes" ∨
          lowerStr (trimStr input) = "true" ∨ lowerStr (trimStr input) = "1"))) ∧
    confirm_action "x" "" true = true ∧ confirm_action "x" "n" true = false := by
  refine ⟨?_, ?_, by decide, by decide⟩
  · intro h
    simp [confirm_action, h]
  · intro h
    simp only [confirm_action, if_neg h]
    constructor
    · intro hc
      have hm : lowerStr (trimStr input) ∈ truthyInputs := List.elem_iff.mp hc
      simpa [truthyInputs] using hm
    · intro hd
      apply List.elem_iff.mpr
      simpa [truthyInputs] using hd

theorem confirm_action_semantics_witness :
    confirm_action "proceed?" " N " true = true ↔
      (lowerStr (trimStr " N ") = "y" ∨ lowerStr (trimStr " N ") = "yes" ∨
        lowerStr (trimStr " N ") = "true" ∨ lowerStr (trimStr " N ") = "1") :=
  (confirm_action_semantics "proceed?" " N " true).2.1 (by decide)

/-- Embedded from `tools/interaction.py` `ensure_required_inputs`'s
coercion block: type tag 'int' applies Python `int` and keeps the raw
string (with a logged warning) on failure; 'float' likewise via `float`;
'bool' maps the lowercased input to its membership in
('true','yes','y','1') — unrecognized input becomes False, never a
string; any other tag (including the default 'str') passes the string
through. -/
def coerce (ty : String) (raw : String) : JsonVal :=
  if ty == "int" then
    match parseIntStr (trimStr raw) with
    | some n => .num n
    | none => .str raw
  else if ty == "float" then
    match parseFloatStr (trimStr raw) with
    | some (m, e) => .fnum m e
    | none => .str raw
  else if ty == "bool" then
    .bool (["true", "yes", "y", "1"].contains (lowerStr raw))
  else .str raw

/-- One entry of the `required_inputs` mapping consumed by
`ensure_required_inputs`: the input's name (its memory key), its prompt,
optional default, optional list of valid options, and its 'type' tag. -/
structure InputSpec where
  name : String
  prompt : String
  deflt : Option String
  options : Option (List String)
  ty : String

/-- Embedded from `tools/interaction.py` `ensure_required_inputs`, one
iteration of its loop: `recall` first (no default) and on success use the
remembered value unchanged, prompting nothing; on a miss, prompt via
`get_user_input`, apply the type coercion, persist the result with
`remember` and return it. -/
def resolveOne (diskOk : Bool) (mem : MemoryStore) (stream : List String) (sp : InputSpec) :
    Option (MemoryStore × List String × JsonVal × Nat) :=
  match recallMem mem sp.name none with
  | (mem', .ok (v, _)) => some (mem', stream, v, 0)
  | (mem', .error _) =>
    match get_user_input stream sp.deflt sp.options with
    | some (rest, n, raw) =>
      some ((remember mem' sp.name (coerce sp.ty raw) diskOk).1, rest, coerce sp.ty raw, n)
    | none => none

/-- Embedded from `tools/interaction.py` `ensure_required_inputs`: the
fold of `resolveOne` over the required-inputs list, also returning the
remaining operator transcript and the total number of prompts issued as
observables. -/
def ensureAux (diskOk : Bool) : List InputSpec → MemoryStore → List String →
    Option (MemoryStore × List String × List (String × JsonVal) × Nat)
  | [], mem, stream => some (mem, stream, [], 0)
  | sp :: rest, mem, stream =>
    match resolveOne diskOk mem stream sp with
    | none => none
    | some (mem', stream', v, n) =>
      match ensureAux diskOk rest mem' stream' with
      | none => none
      | some (mem₂, stream₂, vs, n₂) => some (mem₂, stream₂, (sp.name, v) :: vs, n + n₂)

/-- Embedded from `tools/interaction.py` `ensure_required_inputs`: every
named input is resolved through memory or operator prompting (with
coercion and persistence), and the resolved mapping is returned. -/
def ensure_required_inputs (diskOk : Bool) (specs : List InputSpec)
    (mem : MemoryStore) (stream : List String) :
    Option (MemoryStore × List String × List (String × JsonVal) × Nat) :=
  ensureAux diskOk specs mem stream

theorem recallMem_error_state (mem : MemoryStore) (k : String) (d : Option JsonVal)
    (e : String) (h : (recallMem mem k d).2 = .error e) :
    (recallMem mem k d).1 = mem ∧ alistLookup mem.cache k = none ∧
      alistLookup mem.disk k = none := by
  cases hc : alistLookup mem.cache k with
  | some v => simp [recallMem, hc] at h
  | none =>
    cases hd : alistLookup mem.disk k with
    | some v => simp [recallMem, hc, hd] at h
    | none =>
      cases d with
      | some dv => simp [recallMem, hc, hd] at h
      | none => simp [recallMem, hc, hd]

theorem recallMem_ok_cached (mem : MemoryStore) (k : String) (v : JsonVal)
    (src : String) (h : (recallMem mem k none).2 = .ok (v, src)) :
    alistLookup (recallMem mem k none).1.cache k = some v := by
  cases hc : alistLookup mem.cache k with
  | some w =>
    simp [recallMem, hc] at h
    simp [recallMem, hc, h.1]
  | none =>
    cases hd : alistLookup mem.disk k with
    | some w =>
      simp [recallMem, hc, hd] at h
      simp [recallMem, hc, hd, alistLookup_insert_self, h.1]
    | none => simp [recallMem, hc, hd] at h

theorem recallMem_cache_mono (mem : MemoryStore) (k : String) (d : Option JsonVal)
    (k' : String) (w : JsonVal) (hw : alistLookup mem.cache k' = some w) :
    alistLookup (recallMem mem k d).1.cache k' = some w := by
  cases hc : alistLookup mem.cache k with
  | some v => simp [recallMem, hc, hw]
  | none =>
    cases hd : alistLookup mem.disk k with
    | some v =>
      have hne : k' ≠ k := by
        intro h
        subst h
        rw [hc] at hw
        exact Option.noConfusion hw
      simp [recallMem, hc, hd, alistLookup_insert_ne _ _ _ _ hne, hw]
    | none =>
      cases d with
      | some dv => simp [recallMem, hc, hd, hw]
      | none => simp [recallMem, hc, hd, hw]

theorem resolveOne_result_cached (diskOk : Bool) (mem : MemoryStore)
    (stream : List String) (sp : InputSpec) (mem' : MemoryStore)
    (stream' : List String) (v : JsonVal) (n : Nat)
    (h : resolveOne diskOk mem stream sp = some (mem', stream', v, n)) :
    alistLookup mem'.cache sp.name = some v := by
  rcases hrec : recallMem mem sp.name none with ⟨m1, r⟩
  cases r with
  | ok p =>
    obtain ⟨w, src⟩ := p
    simp [resolveOne, hrec] at h
    obtain ⟨h1, -, h3, -⟩ := h
    have hcat := recallMem_ok_cached mem sp.name w src (by rw [hrec])
    rw [hrec] at hcat
    subst h1
    subst h3
    exact hcat
  | error e =>
    simp only [resolveOne, hrec] at h
    rcases hin : get_user_input stream sp.deflt sp.options with - | ⟨rest, n₀, raw⟩
    · rw [hin] at h
      simp at h
    · rw [hin] at h
      simp only [Option.some.injEq, Prod.mk.injEq] at h
      obtain ⟨h1, -, h3, -⟩ := h
      subst h1
      subst h3
      cases diskOk with
      | true =>
        simpa [remember] using alistLookup_insert_self m1.cache sp.name (coerce sp.ty raw)
      | false =>
        simpa [remember] using alistLookup_insert_self m1.cache sp.name (coerce sp.ty raw)

theorem resolveOne_cache_mono (diskOk : Bool) (mem : MemoryStore)
    (stream : List String) (sp : InputSpec) (mem' : MemoryStore)
    (stream' : List String) (v : JsonVal) (n : Nat)
    (h : resolveOne diskOk mem stream sp = some (mem', stream', v, n))
    (k' : String) (w : JsonVal) (hw : alistLookup mem.cache k' = some w) :
    alistLookup mem'.cache k' = some w := by
  rcases hrec : recallMem mem sp.name none with ⟨m1, r⟩
  have hmono := recallMem_cache_mono mem sp.name none k' w hw
  rw [hrec] at hmono
  cases r with
  | ok p =>
    obtain ⟨u, src⟩ := p
    simp [resolveOne, hrec] at h
    obtain ⟨h1, -, -, -⟩ := h
    subst h1
    exact hmono
  | error e =>
    have hst := recallMem_error_state mem sp.name none e (by rw [hrec])
    rw [hrec] at hst
    have hm1 : m1 = mem := hst.1
    have hcn : alistLookup mem.cache sp.name = none := hst.2.1
    have hne : k' ≠ sp.name := by
      intro hk
      subst hk
      rw [hcn] at hw
      exact Option.noConfusion hw
    simp only [resolveOne, hrec] at h
    rcases hin : get_user_input stream sp.deflt sp.options with - | ⟨rest, n₀, raw⟩
    · rw [hin] at h
      simp at h
    · rw [hin] at h
      simp only [Option.some.injEq, Prod.mk.injEq] at h
      obtain ⟨h1, -, -, -⟩ := h
      subst h1
      rw [hm1]
      cases diskOk with
      | true =>
        simp [remember, alistLookup_insert_ne mem.cache sp.name k' (coerce sp.ty raw) hne, hw]
      | false =>
        simp [remember, alistLookup_insert_ne mem.cache sp.name k' (coerce sp.ty raw) hne, hw]

theorem ensureAux_cache_mono (diskOk : Bool) (specs : List InputSpec) :
    ∀ (mem : MemoryStore) (stream : List String) (mem₂ : MemoryStore)
      (stream₂ : List String) (vs : List (String × JsonVal)) (n : Nat),
      ensureAux diskOk specs mem stream = some (mem₂, stream₂, vs, n) →
      ∀ (k : String) (w : JsonVal), alistLookup mem.cache k = some w →
        alistLookup mem₂.cache k = some w := by
  induction specs with
  | nil =>
    intro mem stream mem₂ stream₂ vs n h k w hw
    simp [ensureAux] at h
    obtain ⟨h1, -, -, -⟩ := h
    subst h1
    exact hw
  | cons sp rest ih =>
    intro mem stream mem₂ stream₂ vs n h k w hw
    rcases hres : resolveOne diskOk mem stream sp with - | ⟨m', s', v, n₀⟩
    · simp [ensureAux, hres] at h
    · rcases htail : ensureAux diskOk rest m' s' with - | ⟨m₂, s₂, vs', n₁⟩
      · simp [ensureAux, hres, htail] at h
      · simp [ensureAux, hres, htail] at h
        obtain ⟨h1, -, -, -⟩ := h
        subst h1
        exact ih m' s' _ s₂ vs' n₁ htail k w
          (resolveOne_cache_mono diskOk mem stream sp m' s' v n₀ hres k w hw)

theorem resolveOne_replay (diskOk' : Bool) (mem : MemoryStore)
    (stream : List String) (sp : InputSpec) (v : JsonVal)
    (hv : alistLookup mem.cache sp.name = some v) :
    resolveOne diskOk' mem stream sp = some (mem, stream, v, 0) := by
  simp [resolveOne, recallMem, hv]

theorem ensureAux_replay (diskOk diskOk' : Bool) (specs : List InputSpec) :
    ∀ (mem mem₁ : MemoryStore) (stream stream₁ stream' : List String)
      (res : List (String × JsonVal)) (n : Nat),
      ensureAux diskOk specs mem stream = some (mem₁, stream₁, res, n) →
      ensureAux diskOk' specs mem₁ stream' = some (mem₁, stream', res, 0) := by
  induction specs with
  | nil =>
    intro mem mem₁ stream stream₁ stream' res n h
    simp [ensureAux] at h
    obtain ⟨h1, -, h3, -⟩ := h
    subst h1
    subst h3
    simp [ensureAux]
  | cons sp rest ih =>
    intro mem mem₁ stream stream₁ stream' res n h
    rcases hres : resolveOne diskOk mem stream sp with - | ⟨m', s', v, n₀⟩
    · simp [ensureAux, hres] at h
    · rcases htail : ensureAux diskOk rest m' s' with - | ⟨m₂, s₂, vs', n₁⟩
      · simp [ensureAux, hres, htail] at h
      · simp [ensureAux, hres, htail] at h
        obtain ⟨h1, -, h3, -⟩ := h
        subst h1
        subst h3
        have hcached := resolveOne_result_cached diskOk mem stream sp m' s' v n₀ hres
        have hfinal := ensureAux_cache_mono diskOk rest m' s' _ s₂ vs' n₁ htail sp.name v hcached
        have htail' := ih m' _ s' s₂ stream' vs' n₁ htail
        simp [ensureAux, resolveOne_replay diskOk' _ stream' sp v hfinal, htail']

/-- C3 --- `ensure_required_inputs` is idempotent within a process: once a
first call has resolved and persisted every input, a second call with the
same spec list performs no operator prompting (zero prompts, operator
transcript untouched), leaves the store unchanged, and returns the
identical mapping --- whatever operator input or disk availability the
second call would see. -/
theorem ensure_required_inputs_idempotent (diskOk : Bool) (specs : List InputSpec)
    (mem mem₁ : MemoryStore) (stream stream₁ : List String)
    (res : List (String × JsonVal)) (n : Nat)
    (h : ensure_required_inputs diskOk specs mem stream = some (mem₁, stream₁, res, n)) :
    ∀ (diskOk' : Bool) (stream' : List String),
      ensure_required_inputs diskOk' specs mem₁ stream' =
        some (mem₁, stream', res, 0) :=
  fun diskOk' stream' =>
    ensureAux_replay diskOk diskOk' specs mem mem₁ stream stream₁ stream' res n h

/-- Concrete run configuration used to exhibit the idempotence contract. -/
def specsW : List InputSpec :=
  [{ name := "lead_count", prompt := "How many leads per day?", deflt := some "5",
     options := none, ty := "int" },
   { name := "industry", prompt := "Target industry?", deflt := none,
     options := none, ty := "str" }]

theorem ensure_required_inputs_idempotent_witness :
    ensure_required_inputs true specsW { cache := [], disk := [] } ["7", "AI SaaS"] =
        some ({ cache := [("lead_count", .num 7), ("industry", .str "AI SaaS")],
                disk := [("lead_count", .num 7), ("industry", .str "AI SaaS")] },
          [], [("lead_count", .num 7), ("industry", .str "AI SaaS")], 2) ∧
      ensure_required_inputs false specsW
          { cache := [("lead_count", .num 7), ("industry", .str "AI SaaS")],
            disk := [("lead_count", .num 7), ("industry", .str "AI SaaS")] }
          ["999", "ignored"] =
        some ({ cache := [("lead_count", .num 7), ("industry", .str "AI SaaS")],
                disk := [("lead_count", .num 7), ("industry", .str "AI SaaS")] },
          ["999", "ignored"], [("lead_count", .num 7), ("industry", .str "AI SaaS")], 0) :=
  ⟨rfl, ensure_required_inputs_idempotent true specsW { cache := [], disk := [] }
    { cache := [("lead_count", .num 7), ("industry", .str "AI SaaS")],
      disk := [("lead_count", .num 7), ("industry", .str "AI SaaS")] }
    ["7", "AI SaaS"] [] [("lead_count", .num 7), ("industry", .str "AI SaaS")] 2
    rfl false ["999", "ignored"]⟩

/-- One lead dict as the lead tools build and return it (keys name, title,
company, email, linkedin, industry, location, website — also the ledger
CSV's header columns). -/
structure Lead where
  name : String
  title : String
  company : String
  email : String
  linkedin : String
  industry : String
  location : String
  website : String
deriving DecidableEq

/-- The four scalar query fields `get_leads` consumes (count already
resolved; when the caller passes no count the code resolves it via
recall/get_user_input upstream of the chain modelled here). -/
structure Query where
  industry : String
  role : String
  location : String
  count : Nat
deriving DecidableEq

/-- One record of the Apollo `people` array, reduced to the fields the
mapping reads; `none` stands for an absent field. -/
structure ApolloPerson where
  first_name : Option String
  last_name : Option String
  title : Option String
  organization_name : Option String
  email : Option String
  linkedin_url : Option String
  contact_location : Option String
  organization_website : Option String
deriving DecidableEq

/-- Embedded from `get_leads_from_apollo`'s per-person mapping: absent
provider fields default to the empty string; the industry is echoed from
the query; the location falls back to the query's when the person has
none.  No validity filtering occurs. -/
def apolloLead (q : Query) (p : ApolloPerson) : Lead :=
  { name := trimStr (p.first_name.getD "" ++ " " ++ p.last_name.getD ""),
    title := p.title.getD "",
    company := p.organization_name.getD "",
    email := p.email.getD "",
    linkedin := p.linkedin_url.getD "",
    industry := q.industry,
    location := p.contact_location.getD q.location,
    website := p.organization_website.getD "" }

/-- One item of the Apify dataset, reduced to the fields the mapping
reads. -/
structure ApifyItem where
  name : Option String
  title : Option String
  email : Option String
  linkedin_url : Option String
  website_url : Option String
  organization_name : Option String
  industry : Option String
  city : Option String
  state : Option String
  country : Option String
deriving DecidableEq

/-- `', '.join(filter(None, parts))`: comma-join of the non-empty parts. -/
def joinNonEmpty : List String → String
  | [] => ""
  | s :: rest =>
    if s == "" then joinNonEmpty rest
    else
      let r := joinNonEmpty rest
      if r == "" then s else s ++ ", " ++ r

/-- Embedded from `get_leads_from_apify`'s per-item mapping: absent fields
default to the empty string; the industry defaults to the query's; the
location is the joined non-empty city/state/country, or the query's when
all are empty.  No validity filtering occurs. -/
def apifyLead (q : Query) (it : ApifyItem) : Lead :=
  let loc := joinNonEmpty [it.city.getD "", it.state.getD "", it.country.getD ""]
  { name := it.name.getD "",
    title := it.title.getD "",
    company := it.organization_name.getD "",
    email := it.email.getD "",
    linkedin := it.linkedin_url.getD "",
    industry := it.industry.getD q.industry,
    location := if loc == "" then q.location else loc,
    website := it.website_url.getD "" }

/-- One row of `data/leads.csv` under its canonical header; `DictReader`
supplies every header column, so the mapping's `.get` defaults (which only
defend against malformed files) are not modelled separately. -/
structure CsvRow where
  name : String
  title : String
  company : String
  email : String
  linkedin : String
  industry : String
  location : String
  website : String
deriving DecidableEq

def csvLead (r : CsvRow) : Lead :=
  { name := r.name, title := r.title, company := r.company, email := r.email,
    linkedin := r.linkedin, industry := r.industry, location := r.location,
    website := r.website }

/-- Is `needle` a contiguous substring of the second list? -/
def containsSub (needle : List Char) : List Char → Bool
  | [] => needle.isEmpty
  | c :: t => needle.isPrefixOf (c :: t) || containsSub needle t

/-- Embedded from `get_leads_from_csv`'s row filter: a blank (falsy) query
field matches everything; otherwise case-insensitive equality or substring
containment against the row's field (both disjuncts kept as in the code,
though equality is subsumed). -/
def csvFieldMatch (pat field : String) : Bool :=
  pat == "" || lowerStr field == lowerStr pat ||
    containsSub (lowerStr pat).data (lowerStr field).data

/-- The row filter: industry, role (against the title column) and location
must each independently match or be blank. -/
def csvRowMatches (q : Query) (r : CsvRow) : Bool :=
  csvFieldMatch q.industry r.industry && csvFieldMatch q.role r.title &&
    csvFieldMatch q.location r.location

/-- Embedded from `get_leads_from_csv`'s reader loop: matching rows are
appended in file order, and the loop breaks as soon as the collected
length reaches `count`, the check coming after each append (so a count of
zero still yields one lead when anything matches, as in the code). -/
def csvCollectAux (q : Query) (needed : Nat) : List CsvRow → List Lead
  | [] => []
  | r :: rest =>
    if csvRowMatches q r then
      if needed ≤ 1 then [csvLead r]
      else csvLead r :: csvCollectAux q (needed - 1) rest
    else csvCollectAux q needed rest

def csvCollect (q : Query) (rows : List CsvRow) : List Lead :=
  csvCollectAux q q.count rows

/-- Status the Apify run-status endpoint reports on one poll. -/
inductive JobStatus where
  | succeeded
  | failed (label : String)
  | pending
deriving DecidableEq

inductive PollResult where
  | success
  | failedWith (label : String)
  | timedOut
deriving DecidableEq

/-- Embedded from `get_leads_from_apify`'s polling loop: bounded attempts
with a fixed sleep; SUCCEEDED breaks out, FAILED/ABORTED/TIMED-OUT is the
provider failure carrying that label, anything else consumes one attempt;
exhausting the budget is the distinct timeout outcome.  `statuses` lists
what successive polls would report; an exhausted list keeps reporting a
pending status. -/
def pollJob : Nat → List JobStatus → PollResult
  | 0, _ => .timedOut
  | b + 1, statuses =>
    match statuses with
    | [] => pollJob b []
    | s :: rest =>
      match s with
      | .succeeded => .success
      | .failed label => .failedWith label
      | .pending => pollJob b rest

/-- The code's `max_attempts` polling budget. -/
def apifyMaxAttempts : Nat := 30

/-- The world one `get_leads` call runs against: the TEST_MODE variable,
credential presence, what each provider endpoint would deliver, and the
contents of `data/leads.csv` (after any sample-corpus bootstrap). -/
structure Env where
  testModeVar : Option String
  apolloKey : Option String
  apifyKey : Option String
  apolloPeople : Except String (List ApolloPerson)
  apifyStart : Except String String
  apifyStatuses : List JobStatus
  apifyItems : List ApifyItem
  csvRows : List CsvRow
  csvErr : Option String

/-- Embedded from `get_leads`:
`os.getenv('TEST_MODE', 'false').lower() == 'true'`. -/
def testModeOn (env : Env) : Bool :=
  lowerStr (env.testModeVar.getD "false") == "true"

/-- Embedded from `tools/get_leads.py` `get_leads_from_apollo`: a missing
APOLLO_API_KEY or a response without a `people` array yields the error
dict; otherwise every person is mapped (absent fields defaulting to the
empty string), the batch is appended to the ledger CSV, and a success dict
is returned — even when the list is empty.  No client-side truncation or
filtering happens; the requested count only sets the provider page size. -/
def get_leads_from_apollo (env : Env) (q : Query) : Except String (List Lead) :=
  match env.apolloKey with
  | none => .error "Apollo API key not found in environment variables"
  | some _ =>
    match env.apolloPeople with
    | .error msg => .error ("Apollo API error: " ++ msg)
    | .ok people => .ok (people.map (apolloLead q))

/-- Embedded from `tools/get_leads.py` `get_leads_from_apify`: a missing
APIFY_API_KEY or a failed run submission errors; the bounded poll loop
yields the distinct timeout and labelled provider-failure errors; after an
explicit SUCCEEDED status the dataset items are mapped (absent fields
defaulting to the empty string) and returned as success, even when
empty. -/
def get_leads_from_apify (env : Env) (q : Query) : Except String (List Lead) :=
  match env.apifyKey with
  | none => .error "Apify API key not found in environment variables"
  | some _ =>
    match env.apifyStart with
    | .error msg => .error ("Apify error: " ++ msg)
    | .ok _ =>
      match pollJob apifyMaxAttempts env.apifyStatuses with
      | .timedOut => .error "Apify run timed out"
      | .failedWith label => .error ("Apify run failed with status: " ++ label)
      | .success => .ok (env.apifyItems.map (apifyLead q))

/-- Embedded from `tools/get_leads.py` `get_leads_from_csv`: the
(bootstrapped) csv rows are filtered case-insensitively, collecting up to
`count` matches, and a success dict is returned even on zero matches; a
read failure yields the CSV error dict. -/
def get_leads_from_csv (env : Env) (q : Query) : Except String (List Lead) :=
  match env.csvErr with
  | some msg => .error ("CSV error: " ++ msg)
  | none => .ok (csvCollect q env.csvRows)

/-- The orchestrator's usefulness test on an adapter's result dict,
embedded from `get_leads`:
`result.get('status') == 'success' and result.get('leads')` — a success
whose lead list is non-empty. -/
def usable (r : Except String (List Lead)) : Bool :=
  match r with
  | .ok ls => !ls.isEmpty
  | .error _ => false

/-- The terminal error returned when both live tiers are unusable. -/
def bothFailedMsg : String :=
  "Failed to retrieve leads from all available sources (Apollo, Apify)."

/-- The adapters `get_leads` can invoke. -/
inductive Tier where
  | apollo
  | apify
  | csv
deriving DecidableEq

/-- The observable outcome of one `get_leads` call: the returned dict and
the adapters actually invoked, in order (the remote tiers imply network
calls). -/
structure OrchOutcome where
  result : Except String (List Lead)
  attempted : List Tier

/-- Embedded from `tools/get_leads.py` `get_leads`: with TEST_MODE truthy
the CSV result is returned outright, whatever it is; otherwise Apollo is
attempted and its result returned when successful and non-empty, then
Apify likewise, and exhaustion of the two live tiers yields the terminal
error.  The CSV tier is never attempted in live mode. -/
def get_leads_run (env : Env) (q : Query) : OrchOutcome :=
  if testModeOn env then
    ⟨get_leads_from_csv env q, [Tier.csv]⟩
  else if usable (get_leads_from_apollo env q) then
    ⟨get_leads_from_apollo env q, [Tier.apollo]⟩
  else if usable (get_leads_from_apify env q) then
    ⟨get_leads_from_apify env q, [Tier.apollo, Tier.apify]⟩
  else
    ⟨.error bothFailedMsg, [Tier.apollo, Tier.apify]⟩

/-- The dict `get_leads` hands back to the Agent Planner. -/
def get_leads (env : Env) (q : Query) : Except String (List Lead) :=
  (get_leads_run env q).result

theorem usable_ok_of_ne_nil (ls : List Lead) (hne : ls ≠ []) :
    usable (Except.ok ls) = true := by
  cases ls with
  | nil => exact absurd rfl hne
  | cons a as => rfl

theorem usable_iff (r : Except String (List Lead)) :
    usable r = true ↔ ∃ ls, r = .ok ls ∧ ls ≠ [] := by
  cases r with
  | error e => simp [usable]
  | ok ls =>
    cases ls with
    | nil => simp [usable]
    | cons a as => simp [usable]

/-- C1 (amended) --- The live fallback chain has two tiers: whichever of
Apollo then Apify is first to deliver a successful, non-empty result,
`get_leads` returns exactly that result in provider order — when the
provider honours the requested page size (at most `count` records), that
is min(count, available) leads; when both live tiers fail or come back
empty, the terminal "Failed to retrieve leads from all available sources
(Apollo, Apify)." error is returned; successful live results are never
empty.  The CSV tier is not part of the live chain. -/
theorem get_leads_live_chain (env : Env) (q : Query) (hT : testModeOn env = false) :
    (∀ ls, get_leads_from_apollo env q = .ok ls → ls ≠ [] →
      (get_leads env q = .ok ls ∧
        (ls.length ≤ q.count → ls.length = min q.count ls.length))) ∧
    (∀ ls, usable (get_leads_from_apollo env q) = false →
      get_leads_from_apify env q = .ok ls → ls ≠ [] →
      (get_leads env q = .ok ls ∧
        (ls.length ≤ q.count → ls.length = min q.count ls.length))) ∧
    (usable (get_leads_from_apollo env q) = false →
      usable (get_leads_from_apify env q) = false →
      get_leads env q = .error bothFailedMsg) ∧
    (∀ ls, get_leads env q = .ok ls → ls ≠ []) := by
  refine ⟨?_, ?_, ?_, ?_⟩
  · intro ls hok hne
    refine ⟨?_, fun hle => by omega⟩
    simp [get_leads, get_leads_run, hT, hok, usable_ok_of_ne_nil ls hne]
  · intro ls hu1 hok hne
    refine ⟨?_, fun hle => by omega⟩
    simp [get_leads, get_leads_run, hT, hu1, hok, usable_ok_of_ne_nil ls hne]
  · intro hu1 hu2
    simp [get_leads, get_leads_run, hT, hu1, hu2]
  · intro ls h
    cases hu1 : usable (get_leads_from_apollo env q) with
    | true =>
      obtain ⟨ls', hok, hne⟩ := (usable_iff _).mp hu1
      simp [get_leads, get_leads_run, hT, hu1] at h
      rw [h] at hok
      injection hok with hls
      subst hls
      exact hne
    | false =>
      cases hu2 : usable (get_leads_from_apify env q) with
      | true =>
        obtain ⟨ls', hok, hne⟩ := (usable_iff _).mp hu2
        simp [get_leads, get_leads_run, hT, hu1, hu2] at h
        rw [h] at hok
        injection hok with hls
        subst hls
        exact hne
      | false => simp [get_leads, get_leads_run, hT, hu1, hu2] at h

/-- A fully-populated Apollo person used by the concrete witnesses; the
values come from the repository's sample corpus. -/
def personAlice : ApolloPerson :=
  { first_name := some "Alice", last_name := some "Smith",
    title := some "Founder", organization_name := some "GrowthAI",
    email := some "alice@growthai.io",
    linkedin_url := some "https://linkedin.com/in/alicesmith",
    contact_location := some "United States",
    organization_website := some "https://growthai.io" }

/-- The lead `personAlice` maps to under the sample query. -/
def leadAlice : Lead :=
  { name := "Alice Smith", title := "Founder", company := "GrowthAI",
    email := "alice@growthai.io",
    linkedin := "https://linkedin.com/in/alicesmith", industry := "AI SaaS",
    location := "United States", website := "https://growthai.io" }

/-- The corresponding row of the sample CSV corpus. -/
def rowAlice : CsvRow :=
  { name := "Alice Smith", title := "Founder", company := "GrowthAI",
    email := "alice@growthai.io",
    linkedin := "https://linkedin.com/in/alicesmith", industry := "AI SaaS",
    location := "United States", website := "https://growthai.io" }

/-- Sample query used by the concrete witnesses. -/
def qW : Query :=
  { industry := "AI SaaS", role := "Founder", location := "United States", count := 5 }

/-- Live-mode environment in which Apollo answers with one person. -/
def envApolloWins : Env :=
  { testModeVar := none, apolloKey := some "apollo-key",
    apifyKey := some "apify-key", apolloPeople := .ok [personAlice],
    apifyStart := .ok "run-1", apifyStatuses := [.succeeded],
    apifyItems := [], csvRows := [], csvErr := none }

theorem get_leads_live_chain_witness :
    get_leads envApolloWins qW = .ok [leadAlice] ∧
      [leadAlice].length = min qW.count [leadAlice].length :=
  ⟨((get_leads_live_chain envApolloWins qW rfl).1 [leadAlice] rfl (by decide)).1,
    ((get_leads_live_chain envApolloWins qW rfl).1 [leadAlice] rfl (by decide)).2
      (by decide)⟩

/-- Live-mode environment in which both remote credentials are absent
while the CSV ledger holds a matching lead. -/
def envNoRemotes : Env :=
  { testModeVar := none, apolloKey := none, apifyKey := none,
    apolloPeople := .ok [], apifyStart := .ok "run-2",
    apifyStatuses := [.succeeded], apifyItems := [], csvRows := [rowAlice],
    csvErr := none }

/-- C1 (counterexample) --- The three-adapter reading is false of the
program: with both remote tiers failing, the CSV adapter would succeed
with a non-empty result, yet `get_leads` returns the terminal error — and
that error string is the capitalized, suffixed message, not the claim's
lowercase phrase. -/
theorem get_leads_three_tier_refuted :
    get_leads_from_csv envNoRemotes qW = .ok [leadAlice] ∧
      get_leads envNoRemotes qW = .error bothFailedMsg ∧
      bothFailedMsg ≠ "failed to retrieve leads from all available sources" :=
  ⟨rfl, rfl, by decide⟩

/-- Configuration consumed by the entry point; embedded from the
repository's compiled entry point (`main`), which derives the required
API-key list from `lead_source`, `email_provider` and `crm`. -/
structure MainConfig where
  lead_source : String
  email_provider : String
  crm : String
deriving DecidableEq

inductive MainOutcome where
  | missingKeys (keys : List String)
  | ranPlanner
deriving DecidableEq

/-- Embedded from the entry point: the required environment keys for a
given configuration ("OPENAI_API_KEY" always; "APOLLO_API_KEY" when
lead_source is apollo; "GMAIL_CREDENTIALS" when email_provider is gmail;
"AIRTABLE_API_KEY" when crm is airtable). -/
def requiredKeys (c : MainConfig) : List String :=
  ["OPENAI_API_KEY"] ++ (if c.lead_source = "apollo" then ["APOLLO_API_KEY"] else [])
    ++ (if c.email_provider = "gmail" then ["GMAIL_CREDENTIALS"] else [])
    ++ (if c.crm = "airtable" then ["AIRTABLE_API_KEY"] else [])

/-- `os.getenv` falsiness as the entry point tests it: unset or empty. -/
def envVarMissing (vars : List (String × String)) (k : String) : Bool :=
  match alistLookup vars k with
  | none => true
  | some v => v == ""

def missingKeysOf (vars : List (String × String)) (c : MainConfig) : List String :=
  (requiredKeys c).filter (envVarMissing vars)

/-- Embedded from the entry point: if any required key is missing it
prints "Missing required API keys: ..." and returns without constructing
or running the planner; otherwise the planner runs. -/
def mainEntry (vars : List (String × String)) (c : MainConfig) : MainOutcome :=
  match missingKeysOf vars c with
  | [] => .ranPlanner
  | ms => .missingKeys ms

/-- C2 --- A missing Apollo credential aborts only that adapter's attempt:
the orchestrator still attempts the Apify tier, and the run as a whole
still terminates with either leads or the terminal both-sources error
(never a crash surfacing the configuration failure).  Consistently, the
entry point refuses to start the planner at all when APOLLO_API_KEY is
absent with lead_source = "apollo", reporting it among the missing keys. -/
theorem configuration_error_fallback (env : Env) (q : Query)
    (hT : testModeOn env = false) (hk : env.apolloKey = none) :
    Tier.apify ∈ (get_leads_run env q).attempted ∧
    ((∃ ls, get_leads env q = .ok ls) ∨ get_leads env q = .error bothFailedMsg) ∧
    (∀ (vars : List (String × String)) (c : MainConfig),
      c.lead_source = "apollo" → alistLookup vars "APOLLO_API_KEY" = none →
      ∃ missing, mainEntry vars c = .missingKeys missing ∧
        "APOLLO_API_KEY" ∈ missing) := by
  have hp : get_leads_from_apollo env q =
      .error "Apollo API key not found in environment variables" := by
    simp [get_leads_from_apollo, hk]
  have hu1 : usable (get_leads_from_apollo env q) = false := by
    rw [hp]
    rfl
  refine ⟨?_, ?_, ?_⟩
  · cases hu2 : usable (get_leads_from_apify env q) <;>
      simp [get_leads_run, hT, hu1, hu2]
  · cases hu2 : usable (get_leads_from_apify env q) with
    | false =>
      right
      simp [get_leads, get_leads_run, hT, hu1, hu2]
    | true =>
      obtain ⟨ls, hok, hne⟩ := (usable_iff _).mp hu2
      exact Or.inl ⟨ls, by
        simp [get_leads, get_leads_run, hT, hu1, hok, usable_ok_of_ne_nil ls hne]⟩
  · intro vars c hsrc hmiss
    have hreq : "APOLLO_API_KEY" ∈ requiredKeys c := by simp [requiredKeys, hsrc]
    have hpred : envVarMissing vars "APOLLO_API_KEY" = true := by
      simp [envVarMissing, hmiss]
    have hmem : "APOLLO_API_KEY" ∈ missingKeysOf vars c :=
      List.mem_filter.mpr ⟨hreq, hpred⟩
    cases hml : missingKeysOf vars c with
    | nil =>
      rw [hml] at hmem
      cases hmem
    | cons a as =>
      refine ⟨a :: as, ?_, hml ▸ hmem⟩
      simp [mainEntry, hml]

theorem configuration_error_fallback_witness :
    Tier.apify ∈ (get_leads_run envNoRemotes qW).attempted ∧
      (∃ missing,
        mainEntry [("OPENAI_API_KEY", "sk-1")]
            { lead_source := "apollo", email_provider := "gmail", crm := "airtable" } =
          .missingKeys missing ∧ "APOLLO_API_KEY" ∈ missing) :=
  ⟨(configuration_error_fallback envNoRemotes qW rfl rfl).1,
    (configuration_error_fallback envNoRemotes qW rfl rfl).2.2
      [("OPENAI_API_KEY", "sk-1")]
      { lead_source := "apollo", email_provider := "gmail", crm := "airtable" } rfl rfl⟩

/-- C6 --- With TEST_MODE set, `get_leads` short-circuits to the CSV
adapter before the live chain: the attempted-adapter trace is exactly
`[csv]` — no Apollo or Apify network call — and the returned dict is the
CSV adapter's, whatever the remote providers would have delivered. -/
theorem test_mode_short_circuit (env : Env) (q : Query) (hT : testModeOn env = true) :
    (get_leads_run env q).attempted = [Tier.csv] ∧
      (get_leads_run env q).result = get_leads_from_csv env q := by
  simp [get_leads_run, hT]

/-- Test-mode environment in which both remote providers would succeed,
used to exhibit the short-circuit. -/
def envTestMode : Env :=
  { testModeVar := some "true", apolloKey := some "apollo-key",
    apifyKey := some "apify-key", apolloPeople := .ok [personAlice],
    apifyStart := .ok "run-3", apifyStatuses := [.succeeded],
    apifyItems := [], csvRows := [rowAlice], csvErr := none }

theorem test_mode_short_circuit_witness :
    (get_leads_run envTestMode qW).attempted = [Tier.csv] :=
  (test_mode_short_circuit envTestMode qW rfl).1

/-- C7 (amended) --- In the live chain a zero-lead result is treated like
a failure: an empty Apollo success makes the Apify tier be attempted, and
an empty (or failed) Apify result after an unusable Apollo one yields the
terminal error; but in test mode the CSV result is returned as-is, even
when it carries zero leads. -/
theorem zero_leads_live_fallback (env : Env) (q : Query)
    (hT : testModeOn env = false) :
    (get_leads_from_apollo env q = .ok [] →
      Tier.apify ∈ (get_leads_run env q).attempted) ∧
    (usable (get_leads_from_apollo env q) = false →
      get_leads_from_apify env q = .ok [] →
      get_leads env q = .error bothFailedMsg) ∧
    (∀ (env' : Env) (q' : Query), testModeOn env' = true →
      get_leads env' q' = get_leads_from_csv env' q') := by
  refine ⟨?_, ?_, ?_⟩
  · intro hok
    have hu1 : usable (get_leads_from_apollo env q) = false := by
      rw [hok]
      rfl
    cases hu2 : usable (get_leads_from_apify env q) <;>
      simp [get_leads_run, hT, hu1, hu2]
  · intro hu1 hok
    have hu2 : usable (get_leads_from_apify env q) = false := by
      rw [hok]
      rfl
    simp [get_leads, get_leads_run, hT, hu1, hu2]
  · intro env' q' hT'
    simp [get_leads, get_leads_run, hT']

/-- Live-mode environment whose Apollo tier answers successfully but with
zero people. -/
def envEmptyApollo : Env :=
  { testModeVar := none, apolloKey := some "apollo-key",
    apifyKey := some "apify-key", apolloPeople := .ok [],
    apifyStart := .ok "run-4", apifyStatuses := [.succeeded],
    apifyItems := [], csvRows := [], csvErr := none }

theorem zero_leads_live_fallback_witness :
    Tier.apify ∈ (get_leads_run envEmptyApollo qW).attempted :=
  (zero_leads_live_fallback envEmptyApollo qW rfl).1 rfl

/-- Test-mode environment whose CSV corpus matches nothing for the query
below. -/
def envCsvTestMode : Env :=
  { testModeVar := some "true", apolloKey := some "apollo-key",
    apifyKey := some "apify-key", apolloPeople := .ok [personAlice],
    apifyStart := .ok "run-5", apifyStatuses := [.succeeded],
    apifyItems := [], csvRows := [rowAlice], csvErr := none }

/-- A query matching no row of the sample corpus. -/
def qNoMatch : Query :=
  { industry := "Quantum Hardware", role := "Founder",
    location := "United States", count := 5 }

/-- C7 (counterexample) --- The universal zero-leads-is-failure reading is
false of the program: in test mode a CSV attempt with zero matches is
returned as a success carrying zero leads — no failure treatment, no
fallback, no terminal error. -/
theorem zero_leads_returned_as_success :
    get_leads envCsvTestMode qNoMatch = .ok ([] : List Lead) ∧
      (get_leads_run envCsvTestMode qNoMatch).attempted = [Tier.csv] :=
  ⟨rfl, rfl⟩

/-- A string-valued JSON field of a request body as the route's
destructuring sees it: `none` for absent or null.  JS truthiness makes the
empty string count as missing too. -/
def jsFalsy (o : Option String) : Bool :=
  o.getD "" == ""

/-- Request body of POST /api/leads, embedded from the route source. -/
structure LeadBody where
  agent_run_id : Option String
  full_name : Option String
  email : Option String
  company : Option String
  title : Option String
  linkedin_url : Option String
  website_url : Option String
  notes : Option String
deriving DecidableEq

/-- Row inserted into the `leads` table, embedded from the route source
and the `Database` type declarations. -/
structure LeadRow where
  user_id : String
  agent_run_id : String
  full_name : String
  email : String
  company : String
  title : String
  linkedin_url : Option String
  website_url : Option String
  notes : Option String
deriving DecidableEq

/-- Outcome of one route invocation: the HTTP status and the row inserted
into the database, if any. -/
structure ApiResponse where
  status : Nat
  inserted : Option LeadRow
deriving DecidableEq

/-- Embedded from src/frontend/src/app/api/leads/route.ts (POST): 401
without a session; 400 (inserting nothing) when any of agent_run_id,
full_name, email, company, title is missing under JS truthiness; 404 when
the referenced agent run is not the caller's; 500 when the insert fails;
otherwise the lead row is inserted and echoed with status 200. -/
def leadsPost (hasSession : Bool) (userId : String) (agentRunFound : Bool)
    (dbOk : Bool) (b : LeadBody) : ApiResponse :=
  if !hasSession then ⟨401, none⟩
  else if jsFalsy b.agent_run_id || jsFalsy b.full_name || jsFalsy b.email ||
      jsFalsy b.company || jsFalsy b.title then ⟨400, none⟩
  else if !agentRunFound then ⟨404, none⟩
  else if !dbOk then ⟨500, none⟩
  else
    ⟨200, some { user_id := userId, agent_run_id := b.agent_run_id.getD "",
                 full_name := b.full_name.getD "", email := b.email.getD "",
                 company := b.company.getD "", title := b.title.getD "",
                 linkedin_url := b.linkedin_url, website_url := b.website_url,
                 notes := b.notes }⟩

/-- C9 (amended) --- The non-empty-fields guarantee lives at the leads API
only: the route rejects with 400, inserting nothing, any lead missing
agent_run_id, full_name, email, company or title, and every row it does
insert has those fields non-empty.  The orchestrator enforces no such
invariant: the Apollo adapter returns the provider's records unfiltered,
every absent field defaulted to the empty string. -/
theorem leads_api_required_fields :
    (∀ (userId : String) (agentRunFound dbOk : Bool) (b : LeadBody),
      (jsFalsy b.agent_run_id || jsFalsy b.full_name || jsFalsy b.email ||
        jsFalsy b.company || jsFalsy b.title) = true →
      leadsPost true userId agentRunFound dbOk b = ⟨400, none⟩) ∧
    (∀ (hasSession : Bool) (userId : String) (agentRunFound dbOk : Bool)
      (b : LeadBody) (row : LeadRow),
      (leadsPost hasSession userId agentRunFound dbOk b).inserted = some row →
      row.agent_run_id ≠ "" ∧ row.full_name ≠ "" ∧ row.email ≠ "" ∧
        row.company ≠ "" ∧ row.title ≠ "") ∧
    (∀ (env : Env) (q : Query) (people : List ApolloPerson),
      env.apolloKey.isSome = true → env.apolloPeople = .ok people →
      get_leads_from_apollo env q = .ok (people.map (apolloLead q))) ∧
    (∀ (q : Query) (p : ApolloPerson),
      (apolloLead q p).title = p.title.getD "" ∧
        (apolloLead q p).company = p.organization_name.getD "" ∧
        (apolloLead q p).email = p.email.getD "") := by
  refine ⟨?_, ?_, ?_, ?_⟩
  · intro userId agentRunFound dbOk b h
    simp [leadsPost, h]
  · intro hasSession userId agentRunFound dbOk b row h
    cases hasSession with
    | false => simp [leadsPost] at h
    | true =>
      cases hreq : (jsFalsy b.agent_run_id || jsFalsy b.full_name || jsFalsy b.email ||
          jsFalsy b.company || jsFalsy b.title) with
      | true => simp [leadsPost, hreq] at h
      | false =>
        cases agentRunFound with
        | false => simp [leadsPost, hreq] at h
        | true =>
          cases dbOk with
          | false => simp [leadsPost, hreq] at h
          | true =>
            simp [leadsPost, hreq] at h
            simp only [Bool.or_eq_false_iff] at hreq
            obtain ⟨⟨⟨⟨h1, h2⟩, h3⟩, h4⟩, h5⟩ := hreq
            subst h
            simp only [jsFalsy, beq_eq_false_iff_ne, ne_eq] at h1 h2 h3 h4 h5
            exact ⟨h1, h2, h3, h4, h5⟩
  · intro env q people hk hpeople
    rcases hkey : env.apolloKey with - | k
    · rw [hkey] at hk
      cases hk
    · simp [get_leads_from_apollo, hkey, hpeople]
  · intro q p
    exact ⟨rfl, rfl, rfl⟩

theorem leads_api_required_fields_witness :
    leadsPost true "user-1" true true
        { agent_run_id := some "run-1", full_name := some "Jane Doe",
          email := some "jane@acme.ai", company := some "Acme AI", title := none,
          linkedin_url := none, website_url := none, notes := none } =
      ⟨400, none⟩ :=
  leads_api_required_fields.1 "user-1" true true
    { agent_run_id := some "run-1", full_name := some "Jane Doe",
      email := some "jane@acme.ai", company := some "Acme AI", title := none,
      linkedin_url := none, website_url := none, notes := none } (by decide)

/-- An Apollo person whose record lacks a title. -/
def personNoTitle : ApolloPerson :=
  { first_name := some "Jane", last_name := some "Doe", title := none,
    organization_name := some "Acme AI", email := some "jane@acme.ai",
    linkedin_url := none, contact_location := none,
    organization_website := none }

/-- The lead the Apollo mapping builds from `personNoTitle` under `qW`:
its title is the empty string. -/
def leadNoTitle : Lead :=
  { name := "Jane Doe", title := "", company := "Acme AI",
    email := "jane@acme.ai", linkedin := "", industry := "AI SaaS",
    location := "United States", website := "" }

/-- Live-mode environment in which Apollo answers with the title-less
person. -/
def envApolloNoTitle : Env :=
  { testModeVar := none, apolloKey := some "apollo-key",
    apifyKey := some "apify-key", apolloPeople := .ok [personNoTitle],
    apifyStart := .ok "run-6", apifyStatuses := [.succeeded],
    apifyItems := [], csvRows := [], csvErr := none }

/-- C9 (counterexample) --- A lead with an empty title is returned to the
caller: the non-empty invariant on name/title/company/email does not hold
for orchestrator-returned leads. -/
theorem returned_lead_with_empty_title :
    get_leads envApolloNoTitle qW = .ok [leadNoTitle] ∧ leadNoTitle.title = "" :=
  ⟨rfl, rfl⟩

/-- Row inserted into the `agents` table by POST /api/agent/run, embedded
from the route source: the user id, the literal status string, and the
`inputs` JSON assembled from the request body. -/
structure AgentRow where
  user_id : String
  status : String
  inputs : List (String × JsonVal)

/-- Embedded from src/frontend/src/app/api/agent/run/route.ts (POST):
401 without a session; 500 when the insert fails; otherwise a run row is
inserted with status hard-coded to "active". -/
def agentRunPost (hasSession : Bool) (userId : String) (dbOk : Bool)
    (inputs : List (String × JsonVal)) : Nat × Option AgentRow :=
  if !hasSession then (401, none)
  else if !dbOk then (500, none)
  else (200, some { user_id := userId, status := "active", inputs := inputs })

/-- The status set declared by the `Database` schema type for the
`agents` table, embedded from the frontend type declarations. -/
def agentStatusValues : List String := ["pending", "running", "completed", "failed"]

/-- Embedded from the dashboard's agent status bar component: the status
text shown for a run, with a catch-all default branch. -/
def getStatusText (status : String) : String :=
  if status = "completed" then "Agent task completed"
  else if status = "running" then "Agent is running..."
  else if status = "failed" then "Agent encountered an error"
  else "Agent is waiting to start"

/-- C10 --- Every run the agent-run POST endpoint creates is inserted with
status "active", which lies outside the schema-declared status set
{pending, running, completed, failed}; hence no run created by this
endpoint carries a declared status at creation, and the dashboard status
display maps it to the catch-all "Agent is waiting to start" branch. -/
theorem agent_run_created_status_active (hasSession : Bool) (userId : String)
    (dbOk : Bool) (inputs : List (String × JsonVal)) (row : AgentRow)
    (h : (agentRunPost hasSession userId dbOk inputs).2 = some row) :
    row.status = "active" ∧ row.status ∉ agentStatusValues ∧
      (∀ s ∈ agentStatusValues, row.status ≠ s) ∧
      getStatusText row.status = "Agent is waiting to start" := by
  cases hasSession with
  | false => simp [agentRunPost] at h
  | true =>
    cases dbOk with
    | false => simp [agentRunPost] at h
    | true =>
      simp [agentRunPost] at h
      subst h
      exact ⟨rfl, (by decide : ("active" : String) ∉ agentStatusValues),
        (by decide : ∀ s ∈ agentStatusValues, ("active" : String) ≠ s), rfl⟩

theorem agent_run_created_status_active_witness :
    ("active" : String) = "active" ∧ ("active" : String) ∉ agentStatusValues ∧
      (∀ s ∈ agentStatusValues, ("active" : String) ≠ s) ∧
      getStatusText "active" = "Agent is waiting to start" :=
  agent_run_created_status_active true "user-1" true []
    { user_id := "user-1", status := "active", inputs := [] } rfl

end AiSdr
